import Mathlib

/-!
Verification of the aggregation core shared by the two front ends of the
peripheral OSINT service (the tool server in src/mcp/cloud_server.py and the
HTTP API in src/api/main.py; the two files duplicate the same core logic
line for line, so one embedding covers both).

Records coming back from the record store are Python dictionaries; we embed
them as association lists from string keys to a small value type, which keeps
the distinction the code relies on between a key that is absent and a key
that is present with value None.

Python string comparison is lexicographic on code points; we embed it as the
executable function lexLe on the underlying character lists, and embed the
stable Python list sort as Mathlib's (stable, structurally recursive)
List.insertionSort.
-/

namespace Peripheral

/-- A JSON-ish field value as stored in a record: a string, an integer, or
Python None.  (Floats and nested values never reach the code paths verified
here.) -/
inductive Val where
  | str : String → Val
  | num : Int → Val
  | null : Val
deriving DecidableEq

/-- A record returned by the record store: a Python dict with string keys,
in insertion order, keys unique. -/
abbrev Rec := List (String × Val)

/-- Python d.get(k): the stored value, or none when the key is absent. -/
def pyGet (r : Rec) (k : String) : Option Val :=
  (r.find? (fun p => p.1 == k)).map (fun p => p.2)

/-- Python d.get(k) collapsing a missing key to None, as the code does when
it immediately consumes the result. -/
def getN (r : Rec) (k : String) : Val :=
  (pyGet r k).getD .null

/-- Python d.get(k, default): the stored value (even when it is None), or the
default only when the key is entirely absent. -/
def getOr (r : Rec) (k : String) (d : Val) : Val :=
  (pyGet r k).getD d

/-- Python truthiness of a value: None, the empty string and 0 are falsy. -/
def Val.truthy : Val → Bool
  | .null => false
  | .str s => !(s == "")
  | .num n => !(n == 0)

/-- Python x or y. -/
def Val.pyOr (x y : Val) : Val :=
  if x.truthy then x else y

/-- The string content of a value; the code only applies string operations to
values that are strings (non-strings collapse to the empty string). -/
def Val.asStr : Val → String
  | .str s => s
  | _ => ""

/-- Lexicographic less-or-equal on code-point lists: the order Python uses to
compare strings. -/
def lexLe : List Char → List Char → Bool
  | [], _ => true
  | _ :: _, [] => false
  | a :: as, b :: bs => if a < b then true else if b < a then false else lexLe as bs

theorem lexLe_total : ∀ a b : List Char, lexLe a b = true ∨ lexLe b a = true := by
  intro a
  induction a with
  | nil => intro b; left; rfl
  | cons x xs ih =>
    intro b
    cases b with
    | nil => right; rfl
    | cons y ys =>
      rcases lt_trichotomy x y with h | h | h
      · left; simp [lexLe, h]
      · subst h
        rcases ih ys with hh | hh
        · left; simp [lexLe, lt_irrefl, hh]
        · right; simp [lexLe, lt_irrefl, hh]
      · right; simp [lexLe, h]

theorem lexLe_trans :
    ∀ a b c : List Char, lexLe a b = true → lexLe b c = true → lexLe a c = true := by
  intro a
  induction a with
  | nil => intro b c _ _; rfl
  | cons x xs ih =>
    intro b c hab hbc
    cases b with
    | nil => simp [lexLe] at hab
    | cons y ys =>
      cases c with
      | nil => simp [lexLe] at hbc
      | cons z zs =>
        rcases lt_trichotomy x y with h1 | h1 | h1
        · rcases lt_trichotomy y z with h2 | h2 | h2
          · have hxz : x < z := lt_trans h1 h2
            simp [lexLe, hxz]
          · subst h2; simp [lexLe, h1]
          · simp [lexLe, lt_asymm h2, h2] at hbc
        · subst h1
          have hab2 : lexLe xs ys = true := by simpa [lexLe, lt_irrefl] using hab
          rcases lt_trichotomy x z with h2 | h2 | h2
          · simp [lexLe, h2]
          · subst h2
            have hbc2 : lexLe ys zs = true := by simpa [lexLe, lt_irrefl] using hbc
            simpa [lexLe, lt_irrefl] using ih ys zs hab2 hbc2
          · simp [lexLe, lt_asymm h2, h2] at hbc
        · simp [lexLe, lt_asymm h1, h1] at hab

/-- Ordering on a (tier, lowercased name) sort key, exactly Python's
lexicographic comparison of the 2-tuples the relevance ranker builds. -/
def tupLe (t₁ : Nat) (n₁ : List Char) (t₂ : Nat) (n₂ : List Char) : Bool :=
  if t₁ < t₂ then true else if t₂ < t₁ then false else lexLe n₁ n₂

theorem tupLe_total (t₁ : Nat) (n₁ : List Char) (t₂ : Nat) (n₂ : List Char) :
    tupLe t₁ n₁ t₂ n₂ = true ∨ tupLe t₂ n₂ t₁ n₁ = true := by
  rcases lt_trichotomy t₁ t₂ with h | h | h
  · left; simp [tupLe, h]
  · subst h
    rcases lexLe_total n₁ n₂ with hh | hh
    · left; simp [tupLe, lt_irrefl, hh]
    · right; simp [tupLe, lt_irrefl, hh]
  · right; simp [tupLe, h]

theorem tupLe_trans (t₁ : Nat) (n₁ : List Char) (t₂ : Nat) (n₂ : List Char)
    (t₃ : Nat) (n₃ : List Char) :
    tupLe t₁ n₁ t₂ n₂ = true → tupLe t₂ n₂ t₃ n₃ = true → tupLe t₁ n₁ t₃ n₃ = true := by
  intro hab hbc
  rcases lt_trichotomy t₁ t₂ with h1 | h1 | h1
  · rcases lt_trichotomy t₂ t₃ with h2 | h2 | h2
    · have h3 : t₁ < t₃ := lt_trans h1 h2
      simp [tupLe, h3]
    · subst h2; simp [tupLe, h1]
    · simp [tupLe, lt_asymm h2, h2] at hbc
  · subst h1
    have hab2 : lexLe n₁ n₂ = true := by simpa [tupLe, lt_irrefl] using hab
    rcases lt_trichotomy t₁ t₃ with h2 | h2 | h2
    · simp [tupLe, h2]
    · subst h2
      have hbc2 : lexLe n₂ n₃ = true := by simpa [tupLe, lt_irrefl] using hbc
      simpa [tupLe, lt_irrefl] using lexLe_trans n₁ n₂ n₃ hab2 hbc2
    · simp [tupLe, lt_asymm h2, h2] at hbc
  · simp [tupLe, lt_asymm h1, h1] at hab

theorem tupLe_imp (t₁ : Nat) (n₁ : List Char) (t₂ : Nat) (n₂ : List Char)
    (h : tupLe t₁ n₁ t₂ n₂ = true) :
    t₁ ≤ t₂ ∧ (t₁ = t₂ → lexLe n₁ n₂ = true) := by
  rcases lt_trichotomy t₁ t₂ with h1 | h1 | h1
  · exact ⟨le_of_lt h1, fun he => absurd he (ne_of_lt h1)⟩
  · subst h1
    have h2 : lexLe n₁ n₂ = true := by simpa [tupLe, lt_irrefl] using h
    exact ⟨le_refl _, fun _ => h2⟩
  · simp [tupLe, lt_asymm h1, h1] at h

/-- ASCII lowercasing of a character, the fragment of Python str.lower
exercised by the code (non-ASCII characters pass through). -/
def lowerChar (c : Char) : Char :=
  if 'A' ≤ c ∧ c ≤ 'Z' then Char.ofNat (c.toNat + 32) else c

/-- Model of Python str.lower. -/
def asciiLower (s : String) : String :=
  ⟨s.data.map lowerChar⟩

/-- Python s[:n]: the first n code points of a string. -/
def truncate (s : String) (n : Nat) : String :=
  ⟨s.data.take n⟩

/-! ## Response formatters (format_article / format_signal / format_story) -/

/-- format_article from the source: hides internal fields, truncates content
to 500 characters after defaulting it to the empty string, and renames
sentiment_category to sentiment. -/
def format_article (a : Rec) : Rec :=
  [ ("id", getN a "id"),
    ("title", getN a "title"),
    ("content", .str (truncate ((getN a "content").pyOr (.str "")).asStr 500)),
    ("published", getN a "published"),
    ("author", getN a "author"),
    ("link", getN a "link"),
    ("sentiment", getN a "sentiment_category"),
    ("story_id", getN a "story_id") ]

/-- format_signal from the source: every field is renamed on the way out
(signal_type to type, weapon_type to weapon, target_location to location,
target_region to region, created_at to timestamp). -/
def format_signal (s : Rec) : Rec :=
  [ ("type", getN s "signal_type"),
    ("weapon", getN s "weapon_type"),
    ("location", getN s "target_location"),
    ("region", getN s "target_region"),
    ("direction", getN s "direction"),
    ("alert_type", getN s "alert_type"),
    ("alert_status", getN s "alert_status"),
    ("timestamp", getN s "created_at") ]

/-- format_story from the source: selects eight fields, all under their
original names. -/
def format_story (s : Rec) : Rec :=
  [ ("id", getN s "id"),
    ("title", getN s "title"),
    ("summary", getN s "summary"),
    ("description", getN s "description"),
    ("topic_keywords", getN s "topic_keywords"),
    ("created", getN s "created"),
    ("updated", getN s "updated"),
    ("source_count", getN s "source_count") ]

/-! ## Access tier gate (_enforce_free_tier) -/

/-- FREE_TIER_MAX_HOURS = 720 (30 days). -/
def FREE_TIER_MAX_HOURS : Int := 720

/-- The advisory produced when a request is clamped, exactly the f-string in
the source. -/
def freeTierMsg (hours : Int) : String :=
  "Free tier limited to " ++ toString FREE_TIER_MAX_HOURS ++
    "h (30 days). Requested " ++ toString hours ++ "h was clamped."

/-- The free tier clamp: requested hours unchanged with no advisory when at
most the ceiling, otherwise the ceiling together with the advisory. -/
def enforce_free_tier (hours : Int) : Int × Option String :=
  if hours ≤ FREE_TIER_MAX_HOURS then (hours, none)
  else (FREE_TIER_MAX_HOURS, some (freeTierMsg hours))

/-! ## Usage meter (_log_usage) -/

/-- One row of the usage log, as assembled by the meter. -/
structure UsageEntry where
  tool_name : String
  params : Option Rec
  client_id : Option String
  response_status : String
  duration_ms : Nat

/-- The usage meter.  The store insert is an external collaborator that may
fail (modelled as an arbitrary Except-valued behaviour); the body catches
every failure and converts it into a warning-level log line.  The Except in
the result type is where an escaping exception would surface. -/
def log_usage (insert : UsageEntry → Except String Unit) (entry : UsageEntry) :
    Except String (List String) :=
  match insert entry with
  | .ok _ => .ok []
  | .error e => .ok ["Usage log failed: " ++ e]

/-- The tail every tool shares: after the substantive work has produced
response, _log_usage runs and the response is returned.  An exception
escaping the meter would propagate out through the Except here. -/
def finish_with_meter {ρ : Type} (insert : UsageEntry → Except String Unit)
    (entry : UsageEntry) (response : ρ) : Except String ρ :=
  match log_usage insert entry with
  | .ok _ => .ok response
  | .error e => .error e

/-! ## Occurrence counting (Python dict-of-int accumulation) -/

/-- m[k] = m.get(k, 0) + 1 on an insertion-ordered dict of counters. -/
def bump : List (Val × Nat) → Val → List (Val × Nat)
  | [], k => [(k, 1)]
  | (k₀, n) :: rest, k =>
      if k₀ == k then (k₀, n + 1) :: rest else (k₀, n) :: bump rest k

/-! ## get_latest_briefing core -/

/-- The fields of the briefing response the claims speak about. -/
structure BriefingResponse where
  count : Nat
  articles : List Rec
  sources_active : Nat

/-- get_latest_briefing, from the store results onward: count is taken from
the full fetched list (the store read is capped at 50 rows upstream), while
the articles field is the same list truncated to 20. -/
def get_latest_briefing_core (rows : List Rec) : BriefingResponse :=
  let articles := rows.map format_article
  { count := articles.length
    articles := articles.take 20
    sources_active := (rows.foldl (fun m item => bump m (getN item "osint_source_id")) []).length }

/-! ## get_signal_timeline core (timeline aggregator) -/

/-- ts = signal.get("created_at", "") used as a string. -/
def tsOf (s : Rec) : String :=
  (getOr s "created_at" (.str "")).asStr

/-- hour_key = ts[:13] + ":00" if len(ts) >= 13 else ts. -/
def hourKey (ts : String) : String :=
  if 13 ≤ ts.length then truncate ts 13 ++ ":00" else ts

/-- Effective signal type in the timeline:
signal.get("signal_type") or signal.get("alert_type") or "unknown". -/
def effType (s : Rec) : Val :=
  ((getN s "signal_type").pyOr (getN s "alert_type")).pyOr (.str "unknown")

/-- One hourly bucket of the timeline. -/
structure Bucket where
  count : Nat
  by_type : List (Val × Nat)
  by_weapon : List (Val × Nat)
deriving DecidableEq

/-- The per-record bucket update: count grows by one, the type breakdown is
bumped at the effective type, and the weapon breakdown is bumped only when
weapon_type is truthy. -/
def Bucket.add (b : Bucket) (s : Rec) : Bucket :=
  { count := b.count + 1
    by_type := bump b.by_type (effType s)
    by_weapon :=
      if (getN s "weapon_type").truthy then bump b.by_weapon (getN s "weapon_type")
      else b.by_weapon }

/-- hourly[hour_key] update on the insertion-ordered defaultdict of buckets:
a fresh key appends a zero bucket before updating it. -/
def updateHourly : List (String × Bucket) → String → Rec → List (String × Bucket)
  | [], k, s => [(k, Bucket.add ⟨0, [], []⟩ s)]
  | (k₀, b) :: rest, k, s =>
      if k₀ == k then (k₀, b.add s) :: rest else (k₀, b) :: updateHourly rest k s

/-- One loop iteration of the grouping pass. -/
def stepHourly (h : List (String × Bucket)) (s : Rec) : List (String × Bucket) :=
  updateHourly h (hourKey (tsOf s)) s

/-- The grouping loop over the fetched signals. -/
def hourlyFold (rows : List Rec) : List (String × Bucket) :=
  rows.foldl stepHourly []

/-- Ascending hour-key order used by sorted(hourly.keys()). -/
def hourRel (p q : String × Bucket) : Prop :=
  lexLe p.1.data q.1.data = true

instance : DecidableRel hourRel := fun p q =>
  inferInstanceAs (Decidable (lexLe p.1.data q.1.data = true))

instance : IsTotal (String × Bucket) hourRel :=
  ⟨fun p q => lexLe_total p.1.data q.1.data⟩

instance : IsTrans (String × Bucket) hourRel :=
  ⟨fun p q r => lexLe_trans p.1.data q.1.data r.1.data⟩

/-- The emitted timeline: buckets listed by ascending hour key. -/
def timeline (rows : List Rec) : List (String × Bucket) :=
  List.insertionSort hourRel (hourlyFold rows)

/-- The fields of the timeline response the claims speak about. -/
structure TimelineResponse where
  total_signals : Nat
  hours_with_activity : Nat
  type_totals : List (Val × Nat)
  weapon_totals : List (Val × Nat)
  timeline : List (String × Bucket)

/-- get_signal_timeline, from the store results onward. -/
def get_signal_timeline_core (rows : List Rec) : TimelineResponse :=
  let tl := timeline rows
  { total_signals := rows.length
    hours_with_activity := tl.length
    type_totals := rows.foldl (fun m s => bump m (effType s)) []
    weapon_totals :=
      rows.foldl
        (fun m s =>
          if (getN s "weapon_type").truthy then bump m (getN s "weapon_type") else m) []
    timeline := tl }

/-- Sum of the per-bucket counters of a bucket list. -/
def sumCounts (l : List (String × Bucket)) : Nat :=
  (l.map (fun p => p.2.count)).sum

/-- The hour keys of a bucket list. -/
def hourKeys (l : List (String × Bucket)) : List String :=
  l.map Prod.fst

/-! ## get_military_signals breakdown -/

/-- The breakdown key of one signal in get_military_signals:
s.get("signal_type", "unknown") - the literal "unknown" only steps in when
the key is absent, a stored None is kept as the key, and alert_type is never
consulted. -/
def breakdownKey (s : Rec) : Val :=
  getOr s "signal_type" (.str "unknown")

/-- The by_type breakdown of get_military_signals over the fetched rows. -/
def military_breakdown (rows : List Rec) : List (Val × Nat) :=
  rows.foldl (fun m s => bump m (breakdownKey s)) []

/-! ## search_entities relevance ranking -/

/-- n = (e.get("name") or "").lower() on one entity record. -/
def entityName (e : Rec) : String :=
  ((getN e "name").pyOr (.str "")).asStr

/-- The lowercased name as a character list, the tie-break component of the
sort key. -/
def lnameData (e : Rec) : List Char :=
  (asciiLower (entityName e)).data

/-- Relevance tier of a record for a query: 0 when the lowercased name equals
the lowercased query, 1 when it merely starts with it, 2 otherwise. -/
def tierOf (query : String) (e : Rec) : Nat :=
  let n := asciiLower (entityName e)
  let ql := asciiLower query
  if n = ql then 0 else if ql.data.isPrefixOf n.data then 1 else 2

/-- results.sort(key=sort_key) order: Python tuple comparison of
(tier, lowercased name). -/
def entityRel (query : String) (a b : Rec) : Prop :=
  tupLe (tierOf query a) (lnameData a) (tierOf query b) (lnameData b) = true

instance (query : String) : DecidableRel (entityRel query) := fun a b =>
  inferInstanceAs
    (Decidable (tupLe (tierOf query a) (lnameData a) (tierOf query b) (lnameData b) = true))

instance (query : String) : IsTotal Rec (entityRel query) :=
  ⟨fun a b => tupLe_total (tierOf query a) (lnameData a) (tierOf query b) (lnameData b)⟩

instance (query : String) : IsTrans Rec (entityRel query) :=
  ⟨fun a b c =>
    tupLe_trans (tierOf query a) (lnameData a) (tierOf query b) (lnameData b)
      (tierOf query c) (lnameData c)⟩

/-- The relevance sort of search_entities over the merged per-kind results
(the caller truncates to the requested limit afterwards). -/
def rankEntities (query : String) (results : List Rec) : List Rec :=
  List.insertionSort (entityRel query) results

/-! ## get_entity_context article resolution -/

/-- One news-item join row for an entity; only the nested news-item lookup
matters here (None when the reference dangles). -/
structure NewsJoinRow where
  news_item : Option Rec

/-- The article dict assembled from a kept nested news item. -/
structure ContextArticle where
  id : Val
  title : Val
  published : Val
  link : Val
  sentiment : Val
deriving DecidableEq

/-- Field selection of a kept row. -/
def toContextArticle (ni : Rec) : ContextArticle :=
  { id := getN ni "id"
    title := getN ni "title"
    published := getN ni "published"
    link := getN ni "link"
    sentiment := getN ni "sentiment_category" }

/-- The in-process filter of get_entity_context articles, exactly the
condition if ni and ni.get("published") and ni["published"] >= cutoff,
fused with the article construction. -/
def codeKeepExtract (cutoff : String) (row : NewsJoinRow) : Option ContextArticle :=
  match row.news_item with
  | none => none
  | some ni =>
      if !ni.isEmpty && (getN ni "published").truthy &&
          lexLe cutoff.data ((getN ni "published").asStr).data then
        some (toContextArticle ni)
      else none

/-- The keep condition as the specification words it: the nested news item
exists, its published timestamp is non-null, and it is at least the cutoff. -/
def claimKeeps (cutoff : String) (row : NewsJoinRow) : Bool :=
  match row.news_item with
  | none => false
  | some ni =>
      !(getN ni "published" == .null) &&
        lexLe cutoff.data ((getN ni "published").asStr).data

/-- articles.sort(key=..., reverse=True): published descending. -/
def pubDescRel (a b : ContextArticle) : Prop :=
  lexLe (b.published.asStr).data (a.published.asStr).data = true

instance : DecidableRel pubDescRel := fun a b =>
  inferInstanceAs (Decidable (lexLe (b.published.asStr).data (a.published.asStr).data = true))

instance : IsTotal ContextArticle pubDescRel :=
  ⟨fun a b =>
    show lexLe (b.published.asStr).data (a.published.asStr).data = true ∨
        lexLe (a.published.asStr).data (b.published.asStr).data = true from
      lexLe_total (b.published.asStr).data (a.published.asStr).data⟩

instance : IsTrans ContextArticle pubDescRel :=
  ⟨fun a b c hab hbc =>
    lexLe_trans (c.published.asStr).data (b.published.asStr).data (a.published.asStr).data
      hbc hab⟩

/-- The articles part of get_entity_context, from the join-row read onward:
filter in row order, sort by published descending, truncate to 30 at
response build. -/
def entity_context_articles (cutoff : String) (rows : List NewsJoinRow) :
    List ContextArticle :=
  (List.insertionSort pubDescRel (rows.filterMap (codeKeepExtract cutoff))).take 30

/-- The claim-side description of the kept articles, written from the
specification words: keep exactly the rows whose nested news item exists
with a non-null published timestamp at least the cutoff, and turn each into
its article.  Compared against the code pipeline in the C4 theorem. -/
def specKeptArticles (cutoff : String) (rows : List NewsJoinRow) : List ContextArticle :=
  ((rows.filter (claimKeeps cutoff)).filterMap (fun r => r.news_item)).map toContextArticle

/-! ## get_story_details core -/

/-- One story-entity join row: rank, confidence, and the nested entity lookup
(None when the reference dangles). -/
structure StoryJoinRow where
  rank : Val
  confidence : Val
  entity : Option Rec

/-- The person list comprehension: rows whose nested entity_person lookup is
falsy are dropped. -/
def extractPersons (rows : List StoryJoinRow) : List Rec :=
  rows.filterMap fun r =>
    match r.entity with
    | none => none
    | some ent =>
        if ent.isEmpty then none
        else some
          [ ("id", getN ent "id"), ("name", getN ent "name"),
            ("role", getN ent "role"), ("rank", r.rank), ("confidence", r.confidence) ]

/-- The organisation list comprehension. -/
def extractOrgs (rows : List StoryJoinRow) : List Rec :=
  rows.filterMap fun r =>
    match r.entity with
    | none => none
    | some ent =>
        if ent.isEmpty then none
        else some
          [ ("id", getN ent "id"), ("name", getN ent "name"),
            ("type", getN ent "org_type"), ("rank", r.rank), ("confidence", r.confidence) ]

/-- The location list comprehension. -/
def extractLocs (rows : List StoryJoinRow) : List Rec :=
  rows.filterMap fun r =>
    match r.entity with
    | none => none
    | some ent =>
        if ent.isEmpty then none
        else some
          [ ("id", getN ent "id"), ("name", getN ent "name"),
            ("lat", getN ent "lat"), ("lon", getN ent "lon"),
            ("country_code", getN ent "country_code"),
            ("rank", r.rank), ("confidence", r.confidence) ]

/-- The error a failed story lookup produces (mapped to a structured error
payload or a 404 by the front ends). -/
inductive StoryError where
  | notFound
deriving DecidableEq

/-- The assembled story-details response. -/
structure StoryDetailsResponse where
  story : Rec
  article_count : Nat
  articles : List Rec
  persons : List Rec
  organisations : List Rec
  locations : List Rec

/-- get_story_details, from the store reads onward: an empty primary fetch is
NotFound; otherwise the response assembles formatted articles and the three
entity lists with dangling join rows dropped. -/
def get_story_details_core (storyRows : List Rec) (articleRows : List Rec)
    (personRows orgRows locRows : List StoryJoinRow) :
    Except StoryError StoryDetailsResponse :=
  match storyRows with
  | [] => .error .notFound
  | story :: _ =>
      let articles := articleRows.map format_article
      .ok
        { story := format_story story
          article_count := articles.length
          articles := articles
          persons := extractPersons personRows
          organisations := extractOrgs orgRows
          locations := extractLocs locRows }

/-! ## Concrete records used to instantiate the theorems -/

/-- An article record carrying only a sentiment_category. -/
def demoArticle : Rec := [("sentiment_category", Val.str "positive")]

/-- A signal record with a mid-hour timestamp. -/
def demoSignal : Rec :=
  [("created_at", Val.str "2026-02-24T14:35:00+00:00"), ("signal_type", Val.str "shahed")]

/-- A signal record carrying only a signal_type. -/
def demoSignalOnlyType : Rec := [("signal_type", Val.str "shahed")]

/-- A signal whose signal_type key is present but holds None. -/
def nullTypeSignal : Rec := [("signal_type", Val.null), ("alert_type", Val.str "air_alert")]

/-- A signal with no signal_type key at all. -/
def noTypeSignal : Rec := [("alert_type", Val.str "air_alert")]

/-- Entity records for the relevance ranking instance. -/
def entKyivOblast : Rec := [("name", Val.str "Kyiv Oblast")]

def entKyiv : Rec := [("name", Val.str "Kyiv")]

def entMykyiv : Rec := [("name", Val.str "Mykyiv")]

/-- A fresh nested news item (one hour before the reference time). -/
def freshNi : Rec :=
  [("id", Val.str "n1"), ("title", Val.str "fresh"),
   ("published", Val.str "2026-02-24T13:00:00+00:00")]

/-- A stale nested news item (about 200 hours before the reference time). -/
def staleNi : Rec :=
  [("id", Val.str "n2"), ("title", Val.str "stale"),
   ("published", Val.str "2026-02-16T05:00:00+00:00")]

/-- Join rows for the entity-context instance: one stale, one fresh, one
dangling. -/
def ctxRows : List NewsJoinRow := [⟨some staleNi⟩, ⟨some freshNi⟩, ⟨none⟩]

/-- The 168-hour cutoff matching the reference time of the two items above. -/
def cutoffDemo : String := "2026-02-17T14:00:00+00:00"

/-- A primary story fetch returning one row. -/
def demoStoryRows : List Rec := [[("id", Val.str "s1"), ("title", Val.str "Strikes")]]

/-- One resolvable person join row and one dangling one. -/
def demoPersonRows : List StoryJoinRow :=
  [⟨Val.num 1, Val.null, some [("id", Val.str "p1"), ("name", Val.str "Alice")]⟩,
   ⟨Val.num 2, Val.null, none⟩]

/-! ## Theorems -/

set_option maxRecDepth 4000

/-- C2: the free-tier clamp returns the request unchanged with no advisory
when it is at most the 720-hour ceiling, and otherwise returns the ceiling
together with an advisory string that names both the ceiling and the
original request (as code-point substrings). -/
theorem enforce_free_tier_spec (h : Int) :
    (h ≤ 720 → enforce_free_tier h = (h, none)) ∧
    (720 < h → ∃ msg, enforce_free_tier h = (720, some msg) ∧
      ("720").data <:+: msg.data ∧ (toString h).data <:+: msg.data) := by
  constructor
  · intro hle
    simp [enforce_free_tier, FREE_TIER_MAX_HOURS, hle]
  · intro hgt
    refine ⟨freeTierMsg h, ?_, ?_, ?_⟩
    · simp [enforce_free_tier, FREE_TIER_MAX_HOURS, not_le.mpr hgt]
    · refine ⟨"Free tier limited to ".data,
        ("h (30 days). Requested " ++ toString h ++ "h was clamped.").data, ?_⟩
      have h720 : toString FREE_TIER_MAX_HOURS = "720" := rfl
      simp [freeTierMsg, h720, String.data_append, List.append_assoc]
    · refine ⟨("Free tier limited to " ++ toString FREE_TIER_MAX_HOURS ++
        "h (30 days). Requested ").data, "h was clamped.".data, ?_⟩
      simp [freeTierMsg, String.data_append, List.append_assoc]

/-- Witness for C2: the clamp at 500 and at 1000 hours. -/
theorem enforce_free_tier_spec_witness :
    enforce_free_tier 500 = (500, none) ∧
    (∃ msg, enforce_free_tier 1000 = (720, some msg) ∧
      ("720").data <:+: msg.data ∧ (toString (1000 : Int)).data <:+: msg.data) :=
  ⟨(enforce_free_tier_spec 500).1 (by decide), (enforce_free_tier_spec 1000).2 (by decide)⟩

/-- C6: the hour-key function keeps the first 13 code points and appends
":00" when the timestamp has at least 13 code points, passes shorter strings
through unchanged, and in particular the demo signal timestamp
2026-02-24T14:35:00+00:00 lands in the bucket keyed 2026-02-24T14:00. -/
theorem hour_key_spec :
    (∀ ts : String, 13 ≤ ts.length → hourKey ts = truncate ts 13 ++ ":00") ∧
    (∀ ts : String, ts.length < 13 → hourKey ts = ts) ∧
    hourKey "2026-02-24T14:35:00+00:00" = "2026-02-24T14:00" ∧
    hourKeys (timeline [demoSignal]) = ["2026-02-24T14:00"] := by
  refine ⟨?_, ?_, by decide, by decide⟩
  · intro ts hl
    simp [hourKey, hl]
  · intro ts hl
    simp [hourKey, Nat.not_le.mpr hl]

/-- Witness for C6: the hypotheses discharged at the demo timestamp and at a
short degenerate one. -/
theorem hour_key_spec_witness :
    (13 ≤ ("2026-02-24T14:35:00+00:00" : String).length ∧
      hourKey "2026-02-24T14:35:00+00:00" = truncate "2026-02-24T14:35:00+00:00" 13 ++ ":00") ∧
    (("bad" : String).length < 13 ∧ hourKey "bad" = "bad") :=
  ⟨⟨by decide, hour_key_spec.1 "2026-02-24T14:35:00+00:00" (by decide)⟩,
   ⟨by decide, hour_key_spec.2.1 "bad" (by decide)⟩⟩

/-- C7: the usage meter never lets a store failure escape: for every insert
behaviour the tool tail still returns its primary response, and a simulated
store outage is converted into a warning log line. -/
theorem usage_meter_never_raises :
    (∀ (ρ : Type) (insert : UsageEntry → Except String Unit) (entry : UsageEntry) (resp : ρ),
      finish_with_meter insert entry resp = .ok resp) ∧
    (∀ entry : UsageEntry,
      log_usage (fun _ => .error "store outage") entry =
        .ok ["Usage log failed: store outage"]) := by
  constructor
  · intro ρ insert entry resp
    unfold finish_with_meter log_usage
    cases insert entry <;> rfl
  · intro entry
    rfl

/-- Witness for C7: a concrete tool response survives a concrete outage. -/
theorem usage_meter_never_raises_witness :
    finish_with_meter (fun _ => .error "store outage")
      ⟨"get_latest_briefing", none, none, "ok", 12⟩ (42 : Nat) = .ok 42 :=
  usage_meter_never_raises.1 Nat (fun _ => .error "store outage")
    ⟨"get_latest_briefing", none, none, "ok", 12⟩ 42

/-- C8 counterexample: format_article is not idempotent, because it renames
sentiment_category to sentiment, so a second application nulls the field. -/
theorem format_article_not_idempotent :
    ¬ (format_article (format_article demoArticle) = format_article demoArticle) := by
  decide

/-- C8 (amended): each formatter is a pure function; format_story is
idempotent, content is truncated to 500 code points after defaulting to the
empty string, and a missing optional field comes out as null - but
format_article and format_signal are not idempotent because they rename
fields. -/
theorem formatters_amended :
    (∀ s : Rec, format_story (format_story s) = format_story s) ∧
    (∀ a : Rec, pyGet (format_article a) "content" =
      some (.str (truncate ((getN a "content").pyOr (.str "")).asStr 500))) ∧
    (∀ a : Rec, pyGet a "author" = none → pyGet (format_article a) "author" = some .null) ∧
    ¬ (format_signal (format_signal demoSignalOnlyType) = format_signal demoSignalOnlyType) := by
  refine ⟨fun s => rfl, fun a => rfl, ?_, by decide⟩
  intro a ha
  simp only [format_article, getN, ha]
  rfl

/-- Witness for C8: the missing-field hypothesis discharged at the empty
record. -/
theorem formatters_amended_witness :
    pyGet ([] : Rec) "author" = none ∧
    pyGet (format_article ([] : Rec)) "author" = some .null :=
  ⟨rfl, formatters_amended.2.2.1 [] rfl⟩

/-- C9: in the briefing response, count is the full fetched length while the
articles list is truncated to 20, so with more than 20 fetched rows count
strictly exceeds the number of returned articles. -/
theorem briefing_count_exceeds_articles (rows : List Rec) :
    (get_latest_briefing_core rows).count = rows.length ∧
    (get_latest_briefing_core rows).articles.length = min 20 rows.length ∧
    (20 < rows.length →
      (get_latest_briefing_core rows).articles.length <
        (get_latest_briefing_core rows).count) := by
  refine ⟨by simp [get_latest_briefing_core], by simp [get_latest_briefing_core], ?_⟩
  intro hgt
  simp only [get_latest_briefing_core, List.length_take, List.length_map]
  omega

/-- Witness for C9: 21 fetched rows produce 20 articles but a count of 21. -/
theorem briefing_count_exceeds_articles_witness :
    20 < (List.replicate 21 ([] : Rec)).length ∧
    (get_latest_briefing_core (List.replicate 21 ([] : Rec))).articles.length <
      (get_latest_briefing_core (List.replicate 21 ([] : Rec))).count :=
  ⟨by simp, (briefing_count_exceeds_articles (List.replicate 21 [])).2.2 (by simp)⟩

/-- C10: the get_military_signals breakdown keys a present-but-null
signal_type under the null key, uses the literal "unknown" only when the key
is entirely absent, and never consults any other field (in particular not
alert_type) - whereas the timeline aggregator maps the same records to
alert_type. -/
theorem military_breakdown_null_type :
    (∀ s : Rec, pyGet s "signal_type" = some .null → breakdownKey s = .null) ∧
    (∀ s : Rec, pyGet s "signal_type" = none → breakdownKey s = .str "unknown") ∧
    (∀ s t : Rec, pyGet s "signal_type" = pyGet t "signal_type" →
      breakdownKey s = breakdownKey t) ∧
    breakdownKey nullTypeSignal = .null ∧
    effType nullTypeSignal = .str "air_alert" ∧
    military_breakdown [nullTypeSignal] = [(.null, 1)] ∧
    breakdownKey noTypeSignal = .str "unknown" ∧
    effType noTypeSignal = .str "air_alert" := by
  refine ⟨?_, ?_, ?_, by decide, by decide, by decide, by decide, by decide⟩
  · intro s hs
    simp [breakdownKey, getOr, hs]
  · intro s hs
    simp [breakdownKey, getOr, hs]
  · intro s t hst
    simp [breakdownKey, getOr, hst]

/-- Witness for C10: the hypotheses discharged at the two demo signals. -/
theorem military_breakdown_null_type_witness :
    (pyGet nullTypeSignal "signal_type" = some Val.null ∧
      breakdownKey nullTypeSignal = Val.null) ∧
    (pyGet noTypeSignal "signal_type" = none ∧
      breakdownKey noTypeSignal = Val.str "unknown") :=
  ⟨⟨rfl, military_breakdown_null_type.1 nullTypeSignal rfl⟩,
   ⟨rfl, military_breakdown_null_type.2.1 noTypeSignal rfl⟩⟩

/-- C3: the relevance sort of search_entities permutes its input and lists
records in non-decreasing tier order, with the lowercased names
non-decreasing inside each tier. -/
theorem search_entities_sorted (query : String) (results : List Rec) :
    (rankEntities query results).Perm results ∧
    (rankEntities query results).Pairwise (fun a b =>
      tierOf query a ≤ tierOf query b ∧
      (tierOf query a = tierOf query b → lexLe (lnameData a) (lnameData b) = true)) := by
  constructor
  · exact List.perm_insertionSort (entityRel query) results
  · have hs := List.sorted_insertionSort (entityRel query) results
    exact List.Pairwise.imp
      (fun hab => tupLe_imp _ _ _ _ hab) hs

/-- Witness for C3: the ranking on three concrete entities for the query
kyiv - exact match first, then the prefix match, then the substring match -
together with the theorem instantiated there. -/
theorem search_entities_sorted_witness :
    rankEntities "kyiv" [entKyivOblast, entMykyiv, entKyiv] =
      [entKyiv, entKyivOblast, entMykyiv] ∧
    (rankEntities "kyiv" [entKyivOblast, entMykyiv, entKyiv]).Perm
      [entKyivOblast, entMykyiv, entKyiv] :=
  ⟨by decide, (search_entities_sorted "kyiv" [entKyivOblast, entMykyiv, entKyiv]).1⟩

/-- A row extractor that ignores dangling join rows produces the same list
whether or not the dangling rows are pre-filtered away. -/
theorem filterMap_dangling_dropped {α : Type} (g : StoryJoinRow → Option α)
    (hg : ∀ r, r.entity = none → g r = none) :
    ∀ rows : List StoryJoinRow,
      ((rows.filter fun r => r.entity.isSome).filterMap g) = rows.filterMap g := by
  intro rows
  induction rows with
  | nil => rfl
  | cons r rest ih =>
    cases he : r.entity with
    | none =>
      have hgr : g r = none := hg r he
      simp [List.filter_cons, he, List.filterMap_cons, hgr, ih]
    | some ent =>
      simp [List.filter_cons, he, List.filterMap_cons, ih]

theorem extractPersons_dangling (rows : List StoryJoinRow) :
    extractPersons (rows.filter fun r => r.entity.isSome) = extractPersons rows := by
  unfold extractPersons
  exact filterMap_dangling_dropped _ (fun r hr => by rw [hr]) rows

theorem extractOrgs_dangling (rows : List StoryJoinRow) :
    extractOrgs (rows.filter fun r => r.entity.isSome) = extractOrgs rows := by
  unfold extractOrgs
  exact filterMap_dangling_dropped _ (fun r hr => by rw [hr]) rows

theorem extractLocs_dangling (rows : List StoryJoinRow) :
    extractLocs (rows.filter fun r => r.entity.isSome) = extractLocs rows := by
  unfold extractLocs
  exact filterMap_dangling_dropped _ (fun r hr => by rw [hr]) rows

/-- C5: story detail resolution tolerates dangling entity references - with
the primary story present it returns successfully and each entity list
equals what the resolvable join rows alone produce - while an absent primary
story fails with NotFound. -/
theorem story_details_dangling (storyRows articleRows : List Rec)
    (personRows orgRows locRows : List StoryJoinRow) :
    (storyRows = [] →
      get_story_details_core storyRows articleRows personRows orgRows locRows =
        .error .notFound) ∧
    (storyRows ≠ [] → ∃ resp,
      get_story_details_core storyRows articleRows personRows orgRows locRows = .ok resp ∧
      resp.persons = extractPersons (personRows.filter fun r => r.entity.isSome) ∧
      resp.organisations = extractOrgs (orgRows.filter fun r => r.entity.isSome) ∧
      resp.locations = extractLocs (locRows.filter fun r => r.entity.isSome)) := by
  constructor
  · intro hempty
    subst hempty
    rfl
  · intro hne
    cases storyRows with
    | nil => exact absurd rfl hne
    | cons story rest =>
      exact ⟨_, rfl, (extractPersons_dangling personRows).symm,
        (extractOrgs_dangling orgRows).symm, (extractLocs_dangling locRows).symm⟩

/-- Witness for C5: a present story with one resolvable and one dangling
person row resolves to a single person entry and no error. -/
theorem story_details_dangling_witness :
    demoStoryRows ≠ [] ∧
    (∃ resp,
      get_story_details_core demoStoryRows [] demoPersonRows [] [] = .ok resp ∧
      resp.persons = extractPersons (demoPersonRows.filter fun r => r.entity.isSome) ∧
      resp.organisations = extractOrgs (([] : List StoryJoinRow).filter fun r => r.entity.isSome) ∧
      resp.locations = extractLocs (([] : List StoryJoinRow).filter fun r => r.entity.isSome)) ∧
    extractPersons demoPersonRows =
      [[("id", Val.str "p1"), ("name", Val.str "Alice"), ("role", Val.null),
        ("rank", Val.num 1), ("confidence", Val.null)]] :=
  ⟨by decide, (story_details_dangling demoStoryRows [] demoPersonRows [] []).2 (by decide),
    by decide⟩

theorem data_empty : ("" : String).data = [] := rfl

theorem lexLe_empty_right {s : String} (hs : s ≠ "") : lexLe s.data [] = false := by
  obtain ⟨l⟩ := s
  cases l with
  | nil => exact absurd rfl hs
  | cons a as => rfl

/-- Pointwise: with a nonempty cutoff, the code's keep condition (nested item
truthy, published truthy, published at least the cutoff) agrees with the
specification wording (nested item exists, published non-null, published at
least the cutoff). -/
theorem keepExtract_agree {cutoff : String} (hc : cutoff ≠ "") (row : NewsJoinRow) :
    codeKeepExtract cutoff row =
      if claimKeeps cutoff row then row.news_item.map toContextArticle else none := by
  obtain ⟨ni?⟩ := row
  cases ni? with
  | none => rfl
  | some ni =>
    have hcond : (!ni.isEmpty && (getN ni "published").truthy &&
        lexLe cutoff.data ((getN ni "published").asStr).data)
        = (!(getN ni "published" == Val.null) &&
            lexLe cutoff.data ((getN ni "published").asStr).data) := by
      cases hni : ni with
      | nil => simp [getN, pyGet, Val.truthy]
      | cons p ps =>
        cases hv : getN (p :: ps) "published" with
        | null => simp [Val.truthy]
        | num n => simp [Val.truthy, Val.asStr, data_empty, lexLe_empty_right hc]
        | str s =>
          by_cases hs : s = ""
          · subst hs
            simp [Val.truthy, Val.asStr, data_empty, lexLe_empty_right hc]
          · have h1 : (s == "") = false := beq_eq_false_iff_ne.mpr hs
            have h2 : (Val.str s == Val.null) = false := rfl
            simp [Val.truthy, Val.asStr, h1, h2]
    simp [codeKeepExtract, claimKeeps, hcond]

/-- With a nonempty cutoff the code's filter pass produces exactly the
specification's kept articles, in row order. -/
theorem filterMap_keepExtract_eq_spec {cutoff : String} (hc : cutoff ≠ "") :
    ∀ rows : List NewsJoinRow,
      rows.filterMap (codeKeepExtract cutoff) = specKeptArticles cutoff rows := by
  intro rows
  induction rows with
  | nil => rfl
  | cons r rest ih =>
    rw [List.filterMap_cons, keepExtract_agree hc r]
    cases hk : claimKeeps cutoff r with
    | false =>
      simp only [specKeptArticles, List.filter_cons, hk] at ih ⊢
      simpa using ih
    | true =>
      cases hni : r.news_item with
      | none => simp [claimKeeps, hni] at hk
      | some ni =>
        have hf : (fun rr : NewsJoinRow => rr.news_item) r = some ni := hni
        simp only [specKeptArticles, List.filter_cons, hk, if_true, hni,
          Option.map_some, List.filterMap_cons_some hf, List.map_cons] at ih ⊢
        exact congrArg (List.cons (toContextArticle ni)) ih

/-- C4: for every join-row list and nonempty cutoff timestamp, the articles
part of get_entity_context is the 30-element truncation of a
published-descending ordering of exactly the specification's kept rows. -/
theorem entity_context_filter_sort (rows : List NewsJoinRow) (cutoff : String)
    (hc : cutoff ≠ "") :
    ∃ s : List ContextArticle,
      s.Perm (specKeptArticles cutoff rows) ∧
      s.Pairwise (fun a b =>
        lexLe (b.published.asStr).data (a.published.asStr).data = true) ∧
      entity_context_articles cutoff rows = s.take 30 := by
  refine ⟨List.insertionSort pubDescRel (rows.filterMap (codeKeepExtract cutoff)),
    ?_, ?_, rfl⟩
  · have hperm := List.perm_insertionSort pubDescRel (rows.filterMap (codeKeepExtract cutoff))
    rw [← filterMap_keepExtract_eq_spec hc rows]
    exact hperm
  · exact List.Pairwise.imp (fun hab => hab)
      (List.sorted_insertionSort pubDescRel (rows.filterMap (codeKeepExtract cutoff)))

/-- Witness for C4: with a 168-hour cutoff, a stale item, a fresh item and a
dangling row resolve to exactly the fresh article. -/
theorem entity_context_filter_sort_witness :
    cutoffDemo ≠ "" ∧
    (∃ s : List ContextArticle,
      s.Perm (specKeptArticles cutoffDemo ctxRows) ∧
      s.Pairwise (fun a b =>
        lexLe (b.published.asStr).data (a.published.asStr).data = true) ∧
      entity_context_articles cutoffDemo ctxRows = s.take 30) ∧
    entity_context_articles cutoffDemo ctxRows = [toContextArticle freshNi] :=
  ⟨by decide, entity_context_filter_sort ctxRows cutoffDemo (by decide), by decide⟩

/-- One bucket update grows the total bucket count by exactly one. -/
theorem sumCounts_updateHourly (h : List (String × Bucket)) (k : String) (s : Rec) :
    sumCounts (updateHourly h k s) = sumCounts h + 1 := by
  induction h with
  | nil => rfl
  | cons p rest ih =>
    obtain ⟨k₀, b⟩ := p
    cases he : (k₀ == k)
    · simp only [updateHourly, he, Bool.false_eq_true, if_false, sumCounts, List.map_cons,
        List.sum_cons] at ih ⊢
      omega
    · simp only [updateHourly, he, if_true, sumCounts, List.map_cons, List.sum_cons,
        Bucket.add]
      omega

/-- One bucket update either leaves the key list unchanged (key already
present) or appends the new key at the end. -/
theorem hourKeys_updateHourly (h : List (String × Bucket)) (k : String) (s : Rec) :
    hourKeys (updateHourly h k s) =
      if k ∈ hourKeys h then hourKeys h else hourKeys h ++ [k] := by
  induction h with
  | nil => rfl
  | cons p rest ih =>
    obtain ⟨k₀, b⟩ := p
    cases he : (k₀ == k)
    · have hne : k ≠ k₀ := fun hk => by simp [hk] at he
      simp only [hourKeys] at ih
      simp only [updateHourly, he, Bool.false_eq_true, if_false, hourKeys, List.map_cons,
        ih]
      by_cases hm : k ∈ List.map Prod.fst rest
      · simp [List.mem_cons, hne, hm]
      · simp [List.mem_cons, hne, hm]
    · have heq : k₀ = k := eq_of_beq he
      subst heq
      simp [updateHourly, hourKeys]

/-- The updated bucket list always contains the updated key. -/
theorem mem_hourKeys_updateHourly (h : List (String × Bucket)) (k : String) (s : Rec) :
    k ∈ hourKeys (updateHourly h k s) := by
  rw [hourKeys_updateHourly]
  by_cases hm : k ∈ hourKeys h
  · simp [hm]
  · simp [hm]

/-- A bucket update never loses a key. -/
theorem mem_hourKeys_updateHourly_of_mem (h : List (String × Bucket)) (k k₁ : String)
    (s : Rec) (hm : k₁ ∈ hourKeys h) : k₁ ∈ hourKeys (updateHourly h k s) := by
  rw [hourKeys_updateHourly]
  by_cases hk : k ∈ hourKeys h
  · simpa [hk] using hm
  · simp [hk, List.mem_append, hm]

/-- A bucket update keeps the key list duplicate-free. -/
theorem nodup_hourKeys_updateHourly (h : List (String × Bucket)) (k : String) (s : Rec)
    (hn : (hourKeys h).Nodup) : (hourKeys (updateHourly h k s)).Nodup := by
  rw [hourKeys_updateHourly]
  by_cases hm : k ∈ hourKeys h
  · simpa [hm] using hn
  · simp [hm, List.nodup_append, hn]

/-- The grouping loop turns n input records into buckets totalling n. -/
theorem sumCounts_foldl (rows : List Rec) :
    ∀ init, sumCounts (rows.foldl stepHourly init) = sumCounts init + rows.length := by
  induction rows with
  | nil => intro init; simp
  | cons s rest ih =>
    intro init
    rw [List.foldl_cons, ih, stepHourly, sumCounts_updateHourly]
    simp
    omega

/-- The grouping loop keeps the key list duplicate-free. -/
theorem nodup_hourKeys_foldl (rows : List Rec) :
    ∀ init, (hourKeys init).Nodup → (hourKeys (rows.foldl stepHourly init)).Nodup := by
  induction rows with
  | nil => intro init hn; simpa using hn
  | cons s rest ih =>
    intro init hn
    rw [List.foldl_cons]
    exact ih _ (nodup_hourKeys_updateHourly _ _ _ hn)

/-- The grouping loop never loses a key. -/
theorem mem_hourKeys_foldl_of_mem (rows : List Rec) :
    ∀ init k, k ∈ hourKeys init → k ∈ hourKeys (rows.foldl stepHourly init) := by
  induction rows with
  | nil => intro init k hm; simpa using hm
  | cons s rest ih =>
    intro init k hm
    rw [List.foldl_cons]
    exact ih _ _ (mem_hourKeys_updateHourly_of_mem _ _ _ _ hm)

/-- Every processed record's hour key ends up among the bucket keys. -/
theorem hourKey_mem_foldl (rows : List Rec) :
    ∀ init s, s ∈ rows → hourKey (tsOf s) ∈ hourKeys (rows.foldl stepHourly init) := by
  induction rows with
  | nil => intro init s hs; exact absurd hs (List.not_mem_nil s)
  | cons r rest ih =>
    intro init s hs
    rw [List.foldl_cons]
    rcases List.mem_cons.mp hs with heq | hmem
    · subst heq
      exact mem_hourKeys_foldl_of_mem rest _ _ (mem_hourKeys_updateHourly init _ s)
    · exact ih _ s hmem

/-- C1: the timeline aggregator conserves the input: total_signals is the
input length, the emitted bucket counts sum to it, the bucket keys are
pairwise distinct, and every input record's truncated hour key is among the
emitted bucket keys - so each record lands in exactly one bucket. -/
theorem signal_timeline_conservation (rows : List Rec) :
    (get_signal_timeline_core rows).total_signals = rows.length ∧
    sumCounts (get_signal_timeline_core rows).timeline = rows.length ∧
    (hourKeys (get_signal_timeline_core rows).timeline).Nodup ∧
    (∀ s, s ∈ rows →
      hourKey (tsOf s) ∈ hourKeys (get_signal_timeline_core rows).timeline) := by
  have hperm : (timeline rows).Perm (hourlyFold rows) :=
    List.perm_insertionSort hourRel (hourlyFold rows)
  have hsum : sumCounts (timeline rows) = sumCounts (hourlyFold rows) :=
    List.Perm.sum_eq (List.Perm.map (fun p : String × Bucket => p.2.count) hperm)
  have hkeys : ∀ k, k ∈ hourKeys (timeline rows) ↔ k ∈ hourKeys (hourlyFold rows) :=
    fun k => (hperm.map Prod.fst).mem_iff
  refine ⟨rfl, ?_, ?_, ?_⟩
  · show sumCounts (timeline rows) = rows.length
    rw [hsum, hourlyFold, sumCounts_foldl rows []]
    simp [sumCounts]
  · show (hourKeys (timeline rows)).Nodup
    exact (hperm.map Prod.fst).nodup_iff.mpr
      (nodup_hourKeys_foldl rows [] (by simp [hourKeys]))
  · intro s hs
    show hourKey (tsOf s) ∈ hourKeys (timeline rows)
    exact (hkeys _).mpr (hourKey_mem_foldl rows [] s hs)

/-- Witness for C1: the demo signal is a member of its singleton input and
its hour key appears among the emitted bucket keys. -/
theorem signal_timeline_conservation_witness :
    demoSignal ∈ [demoSignal] ∧
    hourKey (tsOf demoSignal) ∈
      hourKeys (get_signal_timeline_core [demoSignal]).timeline :=
  ⟨List.mem_singleton.mpr rfl,
   (signal_timeline_conservation [demoSignal]).2.2.2 demoSignal
     (List.mem_singleton.mpr rfl)⟩

end Peripheral
